import Mathlib

/- Shallow embedding of the core of the gsc-task dashboard: the OAuth token
   lifecycle and report cache of src/lib/google.ts, the query-intent
   classification of src/lib/gemini.ts, and the analyze-intents POST handler.
   External effects (the relational store, the OAuth refresh endpoint, the
   generative-language endpoint) are passed in explicitly as values or
   oracles; wall-clock time is a Nat of epoch milliseconds. -/

/-- Emulates the JavaScript expression `s || d` on strings: the empty string
    is falsy and is replaced by the default. -/
def jsOrStr (s d : String) : String := if s == "" then d else s

/-- Emulates `o || d` where `o` is a possibly-undefined string (undefined and
    the empty string are falsy). -/
def jsOrOptStr (o : Option String) (d : String) : String :=
  match o with
  | none => d
  | some s => jsOrStr s d

/-- Emulates `o || d` where `o` is a possibly-undefined number (undefined and
    0 are falsy), as in `refreshedCreds.expires_in || 3600` in
    src/lib/google.ts line 132. -/
def jsOrNat (o : Option Nat) (d : Nat) : Nat :=
  match o with
  | none => d
  | some n => if n == 0 then d else n

/-- The result record of intent analysis (interface `IntentAnalysis` in
    src/lib/gemini.ts). The source interface declares exactly the properties
    query, intent, category, funnel_stage and main_keywords; reading any other
    property of such a JavaScript object (for example an error marker) yields
    undefined, which is modelled by the extra Option-valued field that no code
    path of the program ever sets. The optional fields category, funnel_stage
    and main_keywords are always populated (with defaults) by every code path
    that constructs a record, so they are carried as plain values here. -/
structure IntentAnalysis where
  query : String
  intent : String
  category : String
  funnel_stage : String
  main_keywords : List String
  error : Option String
deriving DecidableEq

/-- Default analysis record for fallbacks (`defaultAnalysis` in
    src/lib/gemini.ts lines 39-45 and in the POST handler lines 8-14). -/
def defaultAnalysis (query : String) : IntentAnalysis :=
  ⟨query, "Unknown", "Unknown", "Unknown", [], none⟩

/-- One object parsed from the classification endpoint's JSON text, before
    any validation: every property may be absent. -/
structure RawAnalysis where
  query : Option String
  intent : Option String
  category : Option String
  funnel_stage : Option String
  main_keywords : Option (List String)
deriving DecidableEq

/-- Outcome of one `model.generateContent` attempt for a single-query prompt,
    as observed by the try/catch in `analyzeSingleQuery`: either the response
    text parsed (via JSON.parse) into an object, or a thrown error that is or
    is not recognized as a rate limit (message containing 429 / Too Many
    Requests or status 429). A JSON.parse failure is a thrown error that is
    not recognized as a rate limit. -/
inductive GenResult where
  | ok (raw : RawAnalysis)
  | err (isRateLimit : Bool)
deriving DecidableEq

/-- JavaScript truthiness of a possibly-undefined string, as used by the
    validation `!analysis.intent || ...` in src/lib/gemini.ts line 82. -/
def jsTruthyStr (o : Option String) : Bool :=
  match o with
  | none => false
  | some s => !(s == "")

/-- The basic validation of `analyzeSingleQuery` (src/lib/gemini.ts lines
    82-84): intent, category and funnel_stage must be present and non-empty,
    main_keywords must be present (an empty array is truthy). -/
def rawValidSingle (r : RawAnalysis) : Bool :=
  jsTruthyStr r.intent && jsTruthyStr r.category && jsTruthyStr r.funnel_stage
    && r.main_keywords.isSome

/-- `{ query, ...analysis }` (src/lib/gemini.ts line 86): the parsed fields
    are spread into the result AFTER the query property, so a `query` field
    present in the parsed response overrides the requested query (the
    `Omit<IntentAnalysis, 'query'>` cast is erased at runtime and the
    validation at lines 82-84 does not inspect `query`). This is only reached
    after `rawValidSingle` guarantees the other fields are present. -/
def rawToAnalysis (query : String) (r : RawAnalysis) : IntentAnalysis :=
  ⟨r.query.getD query, r.intent.getD "", r.category.getD "",
    r.funnel_stage.getD "", r.main_keywords.getD [], none⟩

/-- The retry loop body of `analyzeSingleQuery` (src/lib/gemini.ts lines
    51-103). `fuel` bounds the remaining loop iterations; the loop runs while
    `retries <= maxRetries` and each iteration either returns or increments
    `retries`, so `maxRetries + 1` fuel is never exhausted. The attempt oracle
    is indexed by the current retry count. -/
def analyzeSingleGo (oracle : Nat → GenResult) (query : String)
    (maxRetries : Nat) : Nat → Nat → IntentAnalysis
  | 0, _ => defaultAnalysis query
  | fuel + 1, retries =>
    if retries ≤ maxRetries then
      match oracle retries with
      | GenResult.ok raw =>
        if rawValidSingle raw then rawToAnalysis query raw
        else defaultAnalysis query
      | GenResult.err isRateLimit =>
        if isRateLimit && decide (retries < maxRetries) then
          analyzeSingleGo oracle query maxRetries fuel (retries + 1)
        else defaultAnalysis query
    else defaultAnalysis query

/-- `analyzeSingleQuery` of src/lib/gemini.ts: analyze one query with up to
    `maxRetries` retries on rate-limit errors, falling back to the default
    record on any other failure or on exhaustion. -/
def analyzeSingleQuery (oracle : Nat → GenResult) (query : String)
    (maxRetries : Nat) : IntentAnalysis :=
  analyzeSingleGo oracle query maxRetries (maxRetries + 1) 0

/-- Outcome of one `model.generateContent` attempt for the batch prompt of
    `analyzeMultipleQueriesWithSinglePrompt`: either the response text parsed
    into a JSON array of objects, or a thrown error that is or is not
    recognized as a rate limit. -/
inductive BatchResult where
  | ok (raws : List RawAnalysis)
  | err (isRateLimit : Bool)
deriving DecidableEq

/-- The per-query completion step of `analyzeMultipleQueriesWithSinglePrompt`
    (src/lib/gemini.ts lines 144-154): look up the first returned object whose
    query equals the requested one, and fill each missing or empty field with
    its default. -/
def fillResult (raws : List RawAnalysis) (q : String) : IntentAnalysis :=
  let found := raws.find? (fun r => r.query == some q)
  ⟨q,
    jsOrOptStr (found.bind (fun r => r.intent)) "Unknown",
    jsOrOptStr (found.bind (fun r => r.category)) "Unknown",
    jsOrOptStr (found.bind (fun r => r.funnel_stage)) "Unknown",
    (found.bind (fun r => r.main_keywords)).getD [],
    none⟩

/-- The retry loop body of `analyzeMultipleQueriesWithSinglePrompt`
    (src/lib/gemini.ts lines 108-176), fuelled like `analyzeSingleGo`. -/
def analyzeMultiGo (oracle : Nat → BatchResult) (queries : List String)
    (maxRetries : Nat) : Nat → Nat → List IntentAnalysis
  | 0, _ => queries.map defaultAnalysis
  | fuel + 1, retries =>
    if retries ≤ maxRetries then
      match oracle retries with
      | BatchResult.ok raws => queries.map (fillResult raws)
      | BatchResult.err isRateLimit =>
        if isRateLimit && decide (retries < maxRetries) then
          analyzeMultiGo oracle queries maxRetries fuel (retries + 1)
        else queries.map defaultAnalysis
    else queries.map defaultAnalysis

/-- `analyzeMultipleQueriesWithSinglePrompt` of src/lib/gemini.ts: analyze a
    batch of queries with one prompt expecting a JSON array, retrying on rate
    limits, and falling back to default records for the whole batch
    otherwise. -/
def analyzeMultipleQueriesWithSinglePrompt (oracle : Nat → BatchResult)
    (queries : List String) (maxRetries : Nat) : List IntentAnalysis :=
  analyzeMultiGo oracle queries maxRetries (maxRetries + 1) 0

/-- Order-preserving deduplication with an accumulator of already-seen
    elements; `uniqFirst` below models `[...new Set(queries)]`
    (src/lib/gemini.ts line 191), which keeps the first occurrence of each
    element in input order. -/
def uniqFirstAux (seen : List String) : List String → List String
  | [] => []
  | q :: qs =>
    if seen.contains q then uniqFirstAux seen qs
    else q :: uniqFirstAux (q :: seen) qs

/-- `[...new Set(queries)]`: first occurrences, in input order. -/
def uniqFirst (l : List String) : List String := uniqFirstAux [] l

/-- Slicing of the per-item batch loop `for (i = 0; i < n; i += batchSize)`
    with `slice(i, i + batchSize)` (src/lib/gemini.ts lines 206-222), fuelled
    by the list length so that it computes by reduction. -/
def toBatchesGo (n : Nat) : Nat → List String → List (List String)
  | _, [] => []
  | 0, x :: xs => [x :: xs]
  | fuel + 1, x :: xs =>
    (x :: xs.take (n - 1)) :: toBatchesGo n fuel (xs.drop (n - 1))

/-- The successive slices of size `n` of a list. -/
def toBatches (n : Nat) (l : List String) : List (List String) :=
  toBatchesGo n l.length l

/-- `batchAnalyzeIntents` of src/lib/gemini.ts lines 182-225: deduplicate,
    then either single-prompt mode (batchSize 0) or per-item mode in slices.
    The per-query attempt oracle `so` and the batch attempt oracle `bo` stand
    for the classification endpoint; `apiKeyPresent` models the
    GEMINI_API_KEY guard. The inter-batch sleep only affects timing, not the
    computed list, and every invocation passes maxRetries 3 (the source
    default). -/
def batchAnalyzeIntents (so : String → Nat → GenResult)
    (bo : Nat → BatchResult) (apiKeyPresent : Bool)
    (queries : List String) (batchSize : Nat) : List IntentAnalysis :=
  if !apiKeyPresent then queries.map defaultAnalysis
  else
    let uniqueQueries := uniqFirst queries
    if uniqueQueries.isEmpty then []
    else if batchSize == 0 then
      analyzeMultipleQueriesWithSinglePrompt bo uniqueQueries 3
    else
      ((toBatches batchSize uniqueQueries).map
        (fun batch => batch.map (fun q => analyzeSingleQuery (so q) q 3))).flatten

/-- The distinct queries for which `batchAnalyzeIntents` invokes the
    classification endpoint: none when the API key is missing; otherwise each
    deduplicated query is sent (per-item mode sends one prompt per unique
    query, single-prompt mode sends one prompt containing all of them). -/
def batchAnalyzeCalls (apiKeyPresent : Bool) (queries : List String) :
    List String :=
  if !apiKeyPresent then [] else uniqFirst queries

/-- `new Map(newIntents.map(item => [item.query, item]))` (POST handler line
    126): a JavaScript Map built left to right, later entries overwriting
    earlier ones with the same key. -/
def listToMapLast (l : List IntentAnalysis) : String → Option IntentAnalysis :=
  l.foldl (fun m r => fun q => if q == r.query then some r else m q)
    (fun _ => none)

/-- The three-tier merge of the POST handler lines 128-130:
    `newIntentsMap.get(query) || existingIntents.find(e => e.query === query)
    || defaultAnalysis(query)`. -/
def mergeIntent (newMap : String → Option IntentAnalysis)
    (existing : List IntentAnalysis) (q : String) : IntentAnalysis :=
  match newMap q with
  | some r => r
  | none =>
    match existing.find? (fun e => e.query == q) with
    | some e => e
    | none => defaultAnalysis q

/-- The row written by `storeIntentAnalysis` (src/lib/intent-storage.ts lines
    23-31): each field passes through `|| 'Unknown'` (respectively `|| []`,
    which keeps every list since arrays are truthy); the row has no error
    column. The report_id and analyzed_at columns are not part of the record
    read back by `getExistingIntents` and are not modelled. -/
def formatIntent (r : IntentAnalysis) : IntentAnalysis :=
  ⟨r.query, jsOrStr r.intent "Unknown", jsOrStr r.category "Unknown",
    jsOrStr r.funnel_stage "Unknown", r.main_keywords, none⟩

/-- Row-by-row effect of a successful upsert with `onConflict: 'query'`:
    each record replaces the stored record for its query (the table enforces
    UNIQUE(query)). -/
def upsertRows (cache : String → Option IntentAnalysis)
    (recs : List IntentAnalysis) : String → Option IntentAnalysis :=
  recs.foldl
    (fun c r => fun q => if q == r.query then some (formatIntent r) else c q)
    cache

/-- The single batch upsert of `storeIntentAnalysis`
    (src/lib/intent-storage.ts lines 38-43, `onConflict: 'query'`,
    `ignoreDuplicates: false`): one statement covering all rows. When the
    batch carries the same query value twice, Postgres rejects the whole
    ON CONFLICT DO UPDATE statement (a row may not be affected twice), the
    function returns false, and nothing is written; otherwise every row
    lands. -/
def storeIntentUpsert (cache : String → Option IntentAnalysis)
    (recs : List IntentAnalysis) : String → Option IntentAnalysis :=
  if (recs.map (fun r => r.query)).Nodup then upsertRows cache recs
  else cache

/-- Observable outcome of one run of the analyze-intents POST handler:
    the response's intents array, the distinct queries for which the
    classification endpoint was invoked, and the intent cache after the
    handler's store step. -/
structure PipelineOut where
  intents : List IntentAnalysis
  sent : List String
  newCache : String → Option IntentAnalysis

/-- Step 1 of the POST handler: `getExistingIntents(queries)` — the rows of
    the report_intents table whose query is among the requested ones. The
    table enforces UNIQUE(query), so the select yields one row per distinct
    cached query; the cache argument maps a query to its stored row, and the
    deduplicated request order stands in for the (irrelevant) row order. -/
def existingIntents (cache : String → Option IntentAnalysis)
    (queries : List String) : List IntentAnalysis :=
  (uniqFirst queries).filterMap cache

/-- Step 2 of the POST handler: the queries needing new Gemini analysis —
    `queries.filter(query => !existingQueriesSet.has(query))`. -/
def queriesToAnalyze (cache : String → Option IntentAnalysis)
    (queries : List String) : List String :=
  queries.filter
    (fun q => !(((existingIntents cache queries).map (fun e => e.query)).contains q))

/-- Step 3 of the POST handler, limiting part: at most 10 queries in per-item
    mode, all of them when visibleOnly requests single-prompt mode. -/
def limitedQueries (cache : String → Option IntentAnalysis)
    (queries : List String) (visibleOnly : Bool) : List String :=
  let qta := queriesToAnalyze cache queries
  let maxQueriesToAnalyze := if visibleOnly then qta.length else 10
  if qta.length > maxQueriesToAnalyze then qta.take maxQueriesToAnalyze
  else qta

/-- Step 3 of the POST handler, analysis part: `batchAnalyzeIntents` over the
    limited queries (batch size 0 in single-prompt mode, 1 otherwise), run
    only when some query needs new analysis. -/
def newIntents (cache : String → Option IntentAnalysis)
    (so : String → Nat → GenResult) (bo : Nat → BatchResult)
    (apiKeyPresent : Bool) (queries : List String) (visibleOnly : Bool) :
    List IntentAnalysis :=
  if 0 < (queriesToAnalyze cache queries).length then
    batchAnalyzeIntents so bo apiKeyPresent
      (limitedQueries cache queries visibleOnly)
      (if visibleOnly then 0 else 1)
  else []

/-- The analyze-intents POST handler (steps 1-5 of the handler body, after
    authentication and input validation): look up existing intents by query
    text, analyze the rest with Gemini (single-prompt mode when visibleOnly,
    otherwise per-item mode capped at 10 queries), merge new over existing
    over default in input order, and upsert every merged record into the
    intent cache (the report_intents table keyed by query alone). -/
def analyzeIntentsPOST (cache : String → Option IntentAnalysis)
    (so : String → Nat → GenResult) (bo : Nat → BatchResult)
    (apiKeyPresent : Bool) (queries : List String) (visibleOnly : Bool) :
    PipelineOut :=
  let intentsToSave :=
    queries.map
      (mergeIntent
        (listToMapLast (newIntents cache so bo apiKeyPresent queries visibleOnly))
        (existingIntents cache queries))
  ⟨intentsToSave,
    if 0 < (queriesToAnalyze cache queries).length then
      batchAnalyzeCalls apiKeyPresent (limitedQueries cache queries visibleOnly)
    else [],
    storeIntentUpsert cache intentsToSave⟩

/-- A row of the tokens table as read by `getValidAccessToken`
    (src/lib/google.ts lines 90-94): access_token, refresh_token,
    expiry_date (epoch milliseconds). -/
structure StoredTokens where
  access_token : String
  refresh_token : String
  expiry_date : Nat
deriving DecidableEq

/-- The credentials object returned by `oauth2Client.refreshAccessToken()`
    on success (interface RefreshedCredentials): access_token and expires_in
    may each be absent. The provider may also return a refresh_token, which
    this code never reads. -/
structure RefreshedCreds where
  access_token : Option String
  refresh_token : Option String
  expires_in : Option Nat
deriving DecidableEq

/-- The update object of src/lib/google.ts lines 130-133: it contains exactly
    the access_token and expiry_date columns. -/
structure TokenUpdate where
  access_token : Option String
  expiry_date : Nat
deriving DecidableEq

/-- Supabase `update` with partial-field semantics: columns absent from the
    update object (refresh_token, and access_token when undefined is
    stripped) keep their stored value. -/
def applyTokenUpdate (t : StoredTokens) (u : TokenUpdate) : StoredTokens :=
  ⟨(match u.access_token with | some a => a | none => t.access_token),
    t.refresh_token, u.expiry_date⟩

/-- Observable outcome of one `getValidAccessToken` call: the returned value
    or thrown error message, the number of refresh-endpoint invocations,
    whether a store write succeeded, and the stored row afterwards. The
    returned access token is carried as an Option since the source casts a
    possibly-undefined `refreshedCreds.access_token` to string. -/
structure TokenTrace where
  result : Except String (Option String)
  refreshCalls : Nat
  wroteStore : Bool
  finalTokens : Option StoredTokens

/-- `getValidAccessToken` of src/lib/google.ts lines 86-146. `stored` is the
    row selected for the user (none when the select errs or finds nothing),
    `now` is Date.now(), `refreshOutcome` is the refresh endpoint's response
    (none when `refreshAccessToken()` throws), and `updateOk` tells whether
    the store write succeeds. The throw of 'Failed to update tokens' on a
    write error happens inside the try block, so the catch replaces it and
    the call surfaces 'Failed to refresh access token'. -/
def getValidAccessToken (stored : Option StoredTokens) (now : Nat)
    (refreshOutcome : Option RefreshedCreds) (updateOk : Bool) : TokenTrace :=
  match stored with
  | none => ⟨Except.error "Failed to retrieve user tokens", 0, false, none⟩
  | some tokens =>
    if now + 5 * 60 * 1000 < tokens.expiry_date then
      ⟨Except.ok (some tokens.access_token), 0, false, some tokens⟩
    else
      match refreshOutcome with
      | none =>
        ⟨Except.error "Failed to refresh access token", 1, false, some tokens⟩
      | some creds =>
        let upd : TokenUpdate :=
          ⟨creds.access_token, now + jsOrNat creds.expires_in 3600 * 1000⟩
        if updateOk then
          ⟨Except.ok creds.access_token, 1, true,
            some (applyTokenUpdate tokens upd)⟩
        else
          ⟨Except.error "Failed to refresh access token", 1, false,
            some tokens⟩

/-- A search-analytics row: its dimension keys and its numeric fields as an
    association list from metric name to value. The claims about this
    program never compute with the numeric values, so they are carried as an
    abstract Nat payload. -/
structure ApiDataRow where
  keys : List String
  vals : List (String × Nat)
deriving DecidableEq

/-- `row[metric]`: the field of the row named by the metric, if present. -/
def rowGet (row : ApiDataRow) (metric : String) : Option Nat :=
  (row.vals.find? (fun p => p.1 == metric)).map (fun p => p.2)

/-- The metric filter of `fetchSearchAnalyticsData` (src/lib/google.ts lines
    300-313): keep the keys and, in request order, exactly the requested
    metrics that are present on the row. -/
def filterRow (metrics : List String) (row : ApiDataRow) : ApiDataRow :=
  ⟨row.keys,
    metrics.filterMap (fun m => (rowGet row m).map (fun v => (m, v)))⟩

/-- The report cache key (src/lib/google.ts line 263):
    site, dates and dimensions only; the requested metrics do not occur. -/
def cacheKey (siteUrl startDate endDate : String)
    (dimensions : List String) : String :=
  siteUrl ++ "|" ++ startDate ++ "|" ++ endDate ++ "|"
    ++ String.intercalate "," dimensions

/-- A row of the reports_data table: the cached rows and created_at in epoch
    milliseconds. -/
structure CachedEntry where
  data : List ApiDataRow
  created_at : Nat
deriving DecidableEq

/-- Observable outcome of one `fetchSearchAnalyticsData` call: the returned
    rows (none when the analytics endpoint yields no rows), whether the
    analytics endpoint was queried, and the report cache afterwards. -/
structure FetchTrace where
  result : Option (List ApiDataRow)
  endpointQueried : Bool
  newCache : String × String → Option CachedEntry

/-- `fetchSearchAnalyticsData` of src/lib/google.ts lines 252-331. The cache
    maps (user_id, cache_key) to a stored entry; `gscData` is what
    `querySearchAnalytics` returns when invoked. The age check
    `cacheAge / 3600000 < 24` is equivalent to `now - created_at < 86400000`.
    The write at lines 316-323 is an upsert with NO onConflict argument, so
    it resolves conflicts on the id primary key (not part of the payload; the
    reports_data schema has id UUID PRIMARY KEY and a separate
    UNIQUE(user_id, cache_key)): when a row already exists for this
    (user_id, cache_key) the insert violates the unique constraint, the error
    is ignored (lines 325-328) and the old entry stays; when none exists the
    insert lands. -/
def fetchSearchAnalyticsData (cache : String × String → Option CachedEntry)
    (userId siteUrl startDate endDate : String)
    (metrics dimensions : List String) (now : Nat)
    (gscData : Option (List ApiDataRow)) : FetchTrace :=
  let key := cacheKey siteUrl startDate endDate dimensions
  let fetchFresh : FetchTrace :=
    match gscData with
    | none => ⟨none, true, cache⟩
    | some rows =>
      let filteredData := rows.map (filterRow metrics)
      ⟨some filteredData, true,
        match cache (userId, key) with
        | some _ => cache
        | none =>
          fun k =>
            if k = (userId, key) then some ⟨filteredData, now⟩ else cache k⟩
  match cache (userId, key) with
  | some cached =>
    if now - cached.created_at < 24 * 60 * 60 * 1000 then
      ⟨some cached.data, false, cache⟩
    else fetchFresh
  | none => fetchFresh

/- ------------------------------------------------------------------ -/
/- Helper lemmas                                                       -/
/- ------------------------------------------------------------------ -/

theorem uniqFirstAux_mem (x : String) :
    ∀ (l seen : List String), x ∈ uniqFirstAux seen l ↔ (x ∈ l ∧ x ∉ seen) := by
  intro l
  induction l with
  | nil => intro seen; simp [uniqFirstAux]
  | cons q qs ih =>
    intro seen
    rw [uniqFirstAux]
    split
    · rename_i hq
      rw [ih seen]
      have hq2 : q ∈ seen := by simpa using hq
      simp only [List.mem_cons]
      constructor
      · rintro ⟨h1, h2⟩; exact ⟨Or.inr h1, h2⟩
      · rintro ⟨h1 | h1, h2⟩
        · exact absurd (h1 ▸ hq2) h2
        · exact ⟨h1, h2⟩
    · rename_i hq
      have hq2 : q ∉ seen := by simpa using hq
      simp only [List.mem_cons, ih]
      constructor
      · rintro (rfl | ⟨h1, h2⟩)
        · exact ⟨Or.inl rfl, hq2⟩
        · simp only [List.mem_cons, not_or] at h2
          exact ⟨Or.inr h1, h2.2⟩
      · rintro ⟨rfl | h1, h2⟩
        · exact Or.inl rfl
        · by_cases hxq : x = q
          · exact Or.inl hxq
          · exact Or.inr ⟨h1, by simp [List.mem_cons, hxq, h2]⟩

theorem mem_uniqFirst (x : String) (l : List String) :
    x ∈ uniqFirst l ↔ x ∈ l := by
  simp [uniqFirst, uniqFirstAux_mem]

theorem toBatchesGo_flatten (n : Nat) :
    ∀ (fuel : Nat) (l : List String), l.length ≤ fuel →
      (toBatchesGo n fuel l).flatten = l := by
  intro fuel
  induction fuel with
  | zero =>
    intro l h
    cases l with
    | nil => rfl
    | cons x xs => simp at h
  | succ f ih =>
    intro l h
    cases l with
    | nil => rfl
    | cons x xs =>
      rw [toBatchesGo]
      have hlen : (xs.drop (n - 1)).length ≤ f := by
        simp only [List.length_drop]
        simp only [List.length_cons] at h
        omega
      simp only [List.flatten_cons, ih _ hlen]
      simp [List.take_append_drop]

theorem toBatches_flatten (n : Nat) (l : List String) :
    (toBatches n l).flatten = l :=
  toBatchesGo_flatten n l.length l le_rfl

theorem flatten_map_map {α β : Type} (f : α → β) :
    ∀ (B : List (List α)), (B.map (List.map f)).flatten = B.flatten.map f := by
  intro B
  induction B with
  | nil => rfl
  | cons b B ih =>
    simp only [List.map_cons, List.flatten_cons, List.map_append, ih]

theorem analyzeSingleGo_allRL (oracle : Nat → GenResult) (q : String) (m : Nat)
    (h : ∀ n, oracle n = GenResult.err true) :
    ∀ (fuel retries : Nat), analyzeSingleGo oracle q m fuel retries = defaultAnalysis q := by
  intro fuel
  induction fuel with
  | zero => intro retries; rfl
  | succ f ih =>
    intro retries
    rw [analyzeSingleGo, h retries]
    dsimp only
    split
    · split
      · exact ih _
      · rfl
    · rfl

theorem analyzeMultiGo_allRL (oracle : Nat → BatchResult) (qs : List String) (m : Nat)
    (h : ∀ n, oracle n = BatchResult.err true) :
    ∀ (fuel retries : Nat),
      analyzeMultiGo oracle qs m fuel retries = qs.map defaultAnalysis := by
  intro fuel
  induction fuel with
  | zero => intro retries; rfl
  | succ f ih =>
    intro retries
    rw [analyzeMultiGo, h retries]
    dsimp only
    split
    · split
      · exact ih _
      · rfl
    · rfl

theorem fillResult_query (raws : List RawAnalysis) (q : String) :
    (fillResult raws q).query = q := rfl

theorem batchAnalyze_allRL (so : String → Nat → GenResult)
    (bo : Nat → BatchResult) (qs : List String) (sz : Nat)
    (hs : ∀ q n, so q n = GenResult.err true)
    (hb : ∀ n, bo n = BatchResult.err true) :
    batchAnalyzeIntents so bo true qs sz = (uniqFirst qs).map defaultAnalysis := by
  simp only [batchAnalyzeIntents, Bool.not_true]
  rw [if_neg (by simp)]
  by_cases he : (uniqFirst qs).isEmpty
  · rw [if_pos he]
    rw [List.isEmpty_iff.mp he]
    rfl
  · rw [if_neg he]
    by_cases hsz : (sz == 0) = true
    · rw [if_pos hsz]
      exact analyzeMultiGo_allRL bo (uniqFirst qs) 3 hb 4 0
    · rw [if_neg hsz]
      rw [flatten_map_map, toBatches_flatten]
      apply List.map_congr_left
      intro q hq
      exact analyzeSingleGo_allRL (so q) q 3 (hs q) 4 0

theorem foldl_mapStep_some :
    ∀ (l : List IntentAnalysis) (m : String → Option IntentAnalysis)
      (q : String) (r : IntentAnalysis),
      (l.foldl (fun m2 r2 => fun q2 => if q2 == r2.query then some r2 else m2 q2) m) q
        = some r →
      (r ∈ l ∧ r.query = q) ∨ m q = some r := by
  intro l
  induction l with
  | nil => intro m q r h; exact Or.inr h
  | cons a l ih =>
    intro m q r h
    rw [List.foldl_cons] at h
    rcases ih _ q r h with ⟨h1, h2⟩ | h3
    · exact Or.inl ⟨List.mem_cons_of_mem _ h1, h2⟩
    · by_cases hq : (q == a.query) = true
      · rw [if_pos hq] at h3
        have har : a = r := Option.some.inj h3
        subst har
        exact Or.inl ⟨List.mem_cons_self _ _, (beq_iff_eq.mp hq).symm⟩
      · rw [if_neg hq] at h3
        exact Or.inr h3

theorem listToMapLast_some (l : List IntentAnalysis) (q : String)
    (r : IntentAnalysis) (h : listToMapLast l q = some r) :
    r ∈ l ∧ r.query = q := by
  rcases foldl_mapStep_some l _ q r h with h1 | h2
  · exact h1
  · cases h2

theorem upsertRows_not_mem :
    ∀ (recs : List IntentAnalysis) (c : String → Option IntentAnalysis)
      (q : String), (∀ r ∈ recs, r.query ≠ q) →
      upsertRows c recs q = c q := by
  intro recs
  induction recs with
  | nil => intro c q h; rfl
  | cons a recs ih =>
    intro c q h
    have hcons : upsertRows c (a :: recs)
        = upsertRows
            (fun q2 => if q2 == a.query then some (formatIntent a) else c q2)
            recs := rfl
    rw [hcons, ih _ q (fun r hr => h r (List.mem_cons_of_mem _ hr))]
    have hne : ¬(q == a.query) = true := by
      intro hq
      exact h a (List.mem_cons_self _ _) ((beq_iff_eq.mp hq).symm)
    rw [if_neg hne]

theorem upsertRows_last (v : IntentAnalysis) :
    ∀ (recs : List IntentAnalysis) (c : String → Option IntentAnalysis)
      (q : String),
      (∀ r ∈ recs, r.query = q → r = v) → (∃ r ∈ recs, r.query = q) →
      upsertRows c recs q = some (formatIntent v) := by
  intro recs
  induction recs with
  | nil =>
    intro c q h1 h2
    rcases h2 with ⟨r, hr, _⟩
    simp at hr
  | cons a recs ih =>
    intro c q h1 h2
    have hcons : upsertRows c (a :: recs)
        = upsertRows
            (fun q2 => if q2 == a.query then some (formatIntent a) else c q2)
            recs := rfl
    rw [hcons]
    by_cases hmem : ∃ r ∈ recs, r.query = q
    · exact ih _ q (fun r hr hq => h1 r (List.mem_cons_of_mem _ hr) hq) hmem
    · rcases h2 with ⟨r, hr, hq⟩
      rcases List.mem_cons.mp hr with rfl | hr2
      · have hav : r = v := h1 r (List.mem_cons_self _ _) hq
        have hnone : ∀ r2 ∈ recs, r2.query ≠ q := by
          intro r2 hr2 hq2
          exact hmem ⟨r2, hr2, hq2⟩
        rw [upsertRows_not_mem recs _ q hnone]
        have hqq : (q == r.query) = true := by rw [hq]; exact beq_self_eq_true q
        rw [if_pos hqq, hav]
      · exact absurd ⟨r, hr2, hq⟩ hmem

theorem find?_filterMap_cache_some (cache : String → Option IntentAnalysis)
    (hc : ∀ x r, cache x = some r → r.query = x) (q : String)
    (r : IntentAnalysis) (hq : cache q = some r) :
    ∀ (l : List String), q ∈ l →
      (l.filterMap cache).find? (fun e => e.query == q) = some r := by
  intro l
  induction l with
  | nil => intro h; simp at h
  | cons x xs ih =>
    intro hmem
    cases hx : cache x with
    | none =>
      rw [List.filterMap_cons_none hx]
      rcases List.mem_cons.mp hmem with rfl | h2
      · rw [hq] at hx; cases hx
      · exact ih h2
    | some e =>
      rw [List.filterMap_cons_some hx]
      have hex := hc x e hx
      by_cases hxq : x = q
      · subst hxq
        have her : e = r := by
          rw [hx] at hq
          exact Option.some.inj hq
        subst her
        rw [List.find?_cons_of_pos]
        simp [hex]
      · rw [List.find?_cons_of_neg]
        · apply ih
          rcases List.mem_cons.mp hmem with rfl | h2
          · exact absurd rfl hxq
          · exact h2
        · simp only [hex]
          simp [hxq]

theorem find?_filterMap_cache_none (cache : String → Option IntentAnalysis)
    (hc : ∀ x r, cache x = some r → r.query = x) (q : String)
    (hq : cache q = none) :
    ∀ (l : List String),
      (l.filterMap cache).find? (fun e => e.query == q) = none := by
  intro l
  induction l with
  | nil => rfl
  | cons x xs ih =>
    cases hx : cache x with
    | none =>
      rw [List.filterMap_cons_none hx]
      exact ih
    | some e =>
      rw [List.filterMap_cons_some hx]
      have hex := hc x e hx
      have hxq : x ≠ q := by
        intro h
        rw [h, hq] at hx
        cases hx
      rw [List.find?_cons_of_neg]
      · exact ih
      · simp only [hex]
        simp [hxq]

theorem mergeIntent_query (l ex : List IntentAnalysis) (q : String) :
    (mergeIntent (listToMapLast l) ex q).query = q := by
  rw [mergeIntent]
  cases h : listToMapLast l q with
  | some r => exact (listToMapLast_some l q r h).2
  | none =>
    cases h2 : ex.find? (fun e => e.query == q) with
    | some e => exact beq_iff_eq.mp (by simpa using List.find?_some h2)
    | none => rfl

theorem zip_map_mem {α β : Type} (f : α → β) :
    ∀ (l : List α) (p : β × α), p ∈ (l.map f).zip l → p.1 = f p.2 := by
  intro l
  induction l with
  | nil => intro p hp; simp at hp
  | cons a l ih =>
    intro p hp
    rw [List.map_cons, List.zip_cons_cons] at hp
    rcases List.mem_cons.mp hp with rfl | hp2
    · rfl
    · exact ih p hp2

theorem cached_not_in_queriesToAnalyze
    (cache : String → Option IntentAnalysis) (queries : List String)
    (hc : ∀ x r2, cache x = some r2 → r2.query = x)
    (q : String) (r : IntentAnalysis) (hq : cache q = some r) :
    q ∉ queriesToAnalyze cache queries := by
  intro hmem
  rw [queriesToAnalyze] at hmem
  obtain ⟨hqin, hpred⟩ := List.mem_filter.mp hmem
  have hrmem : r ∈ existingIntents cache queries :=
    List.mem_filterMap.mpr ⟨q, (mem_uniqFirst q queries).mpr hqin, hq⟩
  have hqmap : q ∈ (existingIntents cache queries).map (fun e => e.query) :=
    List.mem_map.mpr ⟨r, hrmem, hc q r hq⟩
  have hcont : ((existingIntents cache queries).map (fun e => e.query)).contains q
      = true :=
    List.elem_eq_true_of_mem hqmap
  rw [hcont] at hpred
  simp at hpred

theorem cached_not_in_limited
    (cache : String → Option IntentAnalysis) (queries : List String)
    (visibleOnly : Bool)
    (hc : ∀ x r2, cache x = some r2 → r2.query = x)
    (q : String) (r : IntentAnalysis) (hq : cache q = some r) :
    q ∉ limitedQueries cache queries visibleOnly := by
  intro hmem
  apply cached_not_in_queriesToAnalyze cache queries hc q r hq
  rw [limitedQueries] at hmem
  split at hmem
  all_goals split at hmem
  all_goals first
  | exact List.take_subset _ _ hmem
  | exact hmem

theorem mergeIntent_of_cached (cache : String → Option IntentAnalysis)
    (so : String → Nat → GenResult) (bo : Nat → BatchResult)
    (apiKeyPresent : Bool) (queries : List String) (visibleOnly : Bool)
    (hc : ∀ x r2, cache x = some r2 → r2.query = x)
    (q : String) (r : IntentAnalysis) (hq : cache q = some r)
    (hqin : q ∈ queries)
    (hnew : ∀ r2 ∈ newIntents cache so bo apiKeyPresent queries visibleOnly,
      r2.query ≠ q) :
    mergeIntent
      (listToMapLast (newIntents cache so bo apiKeyPresent queries visibleOnly))
      (existingIntents cache queries) q = r := by
  rw [mergeIntent]
  have hnone :
      listToMapLast (newIntents cache so bo apiKeyPresent queries visibleOnly) q
        = none := by
    cases hlm :
        listToMapLast (newIntents cache so bo apiKeyPresent queries visibleOnly) q with
    | none => rfl
    | some r2 =>
      exfalso
      obtain ⟨hmem2, hq2⟩ := listToMapLast_some _ _ _ hlm
      exact hnew r2 hmem2 hq2
  rw [hnone]
  have hfind : (existingIntents cache queries).find? (fun e => e.query == q)
      = some r :=
    find?_filterMap_cache_some cache hc q r hq (uniqFirst queries)
      ((mem_uniqFirst q queries).mpr hqin)
  rw [hfind]

theorem analyzeIntentsPOST_intents (cache : String → Option IntentAnalysis)
    (so : String → Nat → GenResult) (bo : Nat → BatchResult)
    (apiKeyPresent : Bool) (queries : List String) (visibleOnly : Bool) :
    (analyzeIntentsPOST cache so bo apiKeyPresent queries visibleOnly).intents
      = queries.map
          (mergeIntent
            (listToMapLast (newIntents cache so bo apiKeyPresent queries visibleOnly))
            (existingIntents cache queries)) := rfl

theorem analyzeIntentsPOST_newCache (cache : String → Option IntentAnalysis)
    (so : String → Nat → GenResult) (bo : Nat → BatchResult)
    (apiKeyPresent : Bool) (queries : List String) (visibleOnly : Bool) :
    (analyzeIntentsPOST cache so bo apiKeyPresent queries visibleOnly).newCache
      = storeIntentUpsert cache
          ((analyzeIntentsPOST cache so bo apiKeyPresent queries visibleOnly).intents)
      := rfl

theorem analyzeIntentsPOST_sent (cache : String → Option IntentAnalysis)
    (so : String → Nat → GenResult) (bo : Nat → BatchResult)
    (apiKeyPresent : Bool) (queries : List String) (visibleOnly : Bool) :
    (analyzeIntentsPOST cache so bo apiKeyPresent queries visibleOnly).sent
      = (if 0 < (queriesToAnalyze cache queries).length then
          batchAnalyzeCalls apiKeyPresent (limitedQueries cache queries visibleOnly)
         else []) := rfl

theorem newIntents_allRL (cache : String → Option IntentAnalysis)
    (so : String → Nat → GenResult) (bo : Nat → BatchResult)
    (queries : List String) (visibleOnly : Bool)
    (hs : ∀ q n, so q n = GenResult.err true)
    (hb : ∀ n, bo n = BatchResult.err true) (r : IntentAnalysis)
    (h : r ∈ newIntents cache so bo true queries visibleOnly) :
    r = defaultAnalysis r.query := by
  rw [newIntents] at h
  split at h
  · rw [batchAnalyze_allRL so bo _ _ hs hb] at h
    obtain ⟨x, hx, rfl⟩ := List.mem_map.mp h
    rfl
  · simp at h

theorem mergeIntent_of_miss_allRL (cache : String → Option IntentAnalysis)
    (so : String → Nat → GenResult) (bo : Nat → BatchResult)
    (queries : List String) (visibleOnly : Bool)
    (hc : ∀ x r2, cache x = some r2 → r2.query = x)
    (hs : ∀ q n, so q n = GenResult.err true)
    (hb : ∀ n, bo n = BatchResult.err true)
    (q : String) (hmiss : cache q = none) :
    mergeIntent (listToMapLast (newIntents cache so bo true queries visibleOnly))
      (existingIntents cache queries) q = defaultAnalysis q := by
  rw [mergeIntent]
  cases hlm :
      listToMapLast (newIntents cache so bo true queries visibleOnly) q with
  | some r2 =>
    obtain ⟨hmem2, hq2⟩ := listToMapLast_some _ _ _ hlm
    have hdef := newIntents_allRL cache so bo queries visibleOnly hs hb r2 hmem2
    rw [hdef, hq2]
  | none =>
    have hfind : (existingIntents cache queries).find? (fun e => e.query == q)
        = none :=
      find?_filterMap_cache_none cache hc q hmiss (uniqFirst queries)
    rw [hfind]

theorem formatIntent_default (q : String) :
    formatIntent (defaultAnalysis q) = defaultAnalysis q := by
  simp [formatIntent, defaultAnalysis, jsOrStr]

theorem merge_map_query (l ex : List IntentAnalysis) (queries : List String) :
    ((queries.map (mergeIntent (listToMapLast l) ex)).map (fun r => r.query))
      = queries := by
  rw [List.map_map]
  have h : ∀ x ∈ queries,
      ((fun r => r.query) ∘ mergeIntent (listToMapLast l) ex) x = x := by
    intro x hx
    exact mergeIntent_query l ex x
  rw [List.map_congr_left h]
  simp

/- ------------------------------------------------------------------ -/
/- Claim theorems                                                      -/
/- ------------------------------------------------------------------ -/

/-- Claim C1: for every input list of query strings (with duplicates, in any
    order), the analyze-intents handler returns one result per input element,
    the i-th result is keyed by the i-th input query, and equal input queries
    receive equal (not independently re-computed) results. -/
theorem classify_order_preservation (cache : String → Option IntentAnalysis)
    (so : String → Nat → GenResult) (bo : Nat → BatchResult)
    (apiKeyPresent : Bool) (queries : List String) (visibleOnly : Bool) :
    (analyzeIntentsPOST cache so bo apiKeyPresent queries visibleOnly).intents.length
        = queries.length
    ∧ (∀ p ∈ (analyzeIntentsPOST cache so bo apiKeyPresent queries
          visibleOnly).intents.zip queries, p.1.query = p.2)
    ∧ ∀ p1 ∈ (analyzeIntentsPOST cache so bo apiKeyPresent queries
          visibleOnly).intents.zip queries,
      ∀ p2 ∈ (analyzeIntentsPOST cache so bo apiKeyPresent queries
          visibleOnly).intents.zip queries,
        p1.2 = p2.2 → p1.1 = p2.1 := by
  refine ⟨?_, ?_, ?_⟩
  · rw [analyzeIntentsPOST_intents]
    exact List.length_map _ _
  · intro p hp
    rw [analyzeIntentsPOST_intents] at hp
    rw [zip_map_mem _ queries p hp]
    exact mergeIntent_query _ _ _
  · intro p1 hp1 p2 hp2 hq
    rw [analyzeIntentsPOST_intents] at hp1 hp2
    rw [zip_map_mem _ queries p1 hp1, zip_map_mem _ queries p2 hp2, hq]

/-- Claim C1 witness: concrete run with a duplicated query. -/
theorem classify_order_preservation_witness :
    (analyzeIntentsPOST (fun _ => none) (fun _ _ => GenResult.err false)
      (fun _ => BatchResult.err false) true ["a", "b", "a"] false).intents.length = 3
    ∧ (defaultAnalysis "b", ("b" : String)).1.query = "b" := by
  constructor
  · exact (classify_order_preservation (fun _ => none)
      (fun _ _ => GenResult.err false) (fun _ => BatchResult.err false)
      true ["a", "b", "a"] false).1
  · exact (classify_order_preservation (fun _ => none)
      (fun _ _ => GenResult.err false) (fun _ => BatchResult.err false)
      true ["a", "b", "a"] false).2.1 (defaultAnalysis "b", "b") (by decide)

/-- Claim C6 counterexample: the classification endpoint is not invoked for a
    cached query, but the cached record is NOT always returned — in per-item
    mode the `{ query, ...analysis }` spread at gemini.ts line 86 lets the
    endpoint's JSON claim an arbitrary query key. Here the response for
    query "a" carries query "cached", lands in newIntentsMap under the cached
    key, and the handler returns it (intent "Transactional") instead of the
    cached record (intent "Informational"). -/
theorem cache_precedence_override_cex :
    ((analyzeIntentsPOST
        (fun x => if x = "cached"
          then some ⟨"cached", "Informational", "Topic", "Decision", ["kw"], none⟩
          else none)
        (fun _ _ => GenResult.ok
          ⟨some "cached", some "Transactional", some "Shoes", some "Decision",
            some ["buy"]⟩)
        (fun _ => BatchResult.err false)
        true ["cached", "a"] false).intents.map (fun r => r.intent))
      = ["Transactional", "Unknown"]
    ∧ (fun x => if x = "cached"
        then some (⟨"cached", "Informational", "Topic", "Decision", ["kw"], none⟩
          : IntentAnalysis)
        else none) "cached"
      = some ⟨"cached", "Informational", "Topic", "Decision", ["kw"], none⟩
    ∧ ("Transactional" : String) ≠ "Informational" := by
  exact ⟨rfl, rfl, by decide⟩

/-- Claim C6 (amended): a query that already has a cached IntentRecord is
    never sent to the classification endpoint; and provided no freshly
    analyzed record carries that query's key (the endpoint can claim an
    arbitrary query key in per-item mode through the `{ query, ...analysis }`
    spread), every position holding that query in the input receives exactly
    the cached record. -/
theorem classify_cache_precedence (cache : String → Option IntentAnalysis)
    (so : String → Nat → GenResult) (bo : Nat → BatchResult)
    (apiKeyPresent : Bool) (queries : List String) (visibleOnly : Bool)
    (hc : ∀ x r2, cache x = some r2 → r2.query = x)
    (q : String) (r : IntentAnalysis) (hq : cache q = some r) :
    q ∉ (analyzeIntentsPOST cache so bo apiKeyPresent queries visibleOnly).sent
    ∧ ((∀ r2 ∈ newIntents cache so bo apiKeyPresent queries visibleOnly,
          r2.query ≠ q) →
        ∀ p ∈ (analyzeIntentsPOST cache so bo apiKeyPresent queries
          visibleOnly).intents.zip queries, p.2 = q → p.1 = r) := by
  constructor
  · rw [analyzeIntentsPOST_sent]
    intro hmem
    have hql : q ∈ limitedQueries cache queries visibleOnly := by
      split at hmem
      · rw [batchAnalyzeCalls] at hmem
        split at hmem
        · simp at hmem
        · exact (mem_uniqFirst q _).mp hmem
      · simp at hmem
    exact cached_not_in_limited cache queries visibleOnly hc q r hq hql
  · intro hnew p hp hpq
    have hqin : q ∈ queries := by
      rw [← hpq]
      exact (List.of_mem_zip hp).2
    rw [analyzeIntentsPOST_intents] at hp
    rw [zip_map_mem _ queries p hp, hpq]
    exact mergeIntent_of_cached cache so bo apiKeyPresent queries visibleOnly
      hc q r hq hqin hnew

/-- Claim C6 witness: concrete run where one query is cached. -/
theorem classify_cache_precedence_witness :
    "cached" ∉ (analyzeIntentsPOST
        (fun x => if x = "cached"
          then some ⟨"cached", "Informational", "Topic", "Decision", ["kw"], none⟩
          else none)
        (fun _ _ => GenResult.err false) (fun _ => BatchResult.err false)
        true ["cached", "new"] false).sent
    ∧ (⟨"cached", "Informational", "Topic", "Decision", ["kw"], none⟩
          : IntentAnalysis)
        = ⟨"cached", "Informational", "Topic", "Decision", ["kw"], none⟩ := by
  have hc : ∀ x r2,
      (fun x => if x = "cached"
        then some (⟨"cached", "Informational", "Topic", "Decision", ["kw"], none⟩
          : IntentAnalysis)
        else none) x = some r2 → r2.query = x := by
    intro x r2 h
    have h2 : (if x = "cached"
        then some (⟨"cached", "Informational", "Topic", "Decision", ["kw"], none⟩
          : IntentAnalysis)
        else none) = some r2 := h
    by_cases hx : x = "cached"
    · subst hx
      rw [if_pos rfl] at h2
      rw [← Option.some.inj h2]
    · rw [if_neg hx] at h2
      cases h2
  constructor
  · exact (classify_cache_precedence _ (fun _ _ => GenResult.err false)
      (fun _ => BatchResult.err false) true ["cached", "new"] false hc
      "cached" ⟨"cached", "Informational", "Topic", "Decision", ["kw"], none⟩
      (by rw [if_pos rfl])).1
  · exact (classify_cache_precedence _ (fun _ _ => GenResult.err false)
      (fun _ => BatchResult.err false) true ["cached", "new"] false hc
      "cached" ⟨"cached", "Informational", "Topic", "Decision", ["kw"], none⟩
      (by rw [if_pos rfl])).2 (by decide)
      (⟨"cached", "Informational", "Topic", "Decision", ["kw"], none⟩, "cached")
      (by decide) rfl

/-- Claim C3 counterexample: under sustained rate limiting (HTTP 429 on every
    attempt, retry cap 3), the result record carries no error marker at all —
    the IntentAnalysis interface has no error field and no code path sets
    one — so the error field is not "RateLimitExceeded". -/
theorem rate_limit_error_marker_cex :
    ((analyzeIntentsPOST (fun _ => none) (fun _ _ => GenResult.err true)
        (fun _ => BatchResult.err true) true ["buy shoes"] false).intents.map
      (fun r => r.error)) = [none]
    ∧ (none : Option String) ≠ some "RateLimitExceeded" := by
  exact ⟨rfl, by decide⟩

/-- Claim C3 (amended): if every attempt against the classification endpoint
    fails with a rate-limit response and the retry cap of 3 is exhausted, then
    every affected (uncached) query receives the default record with
    intent "Unknown" and no error marker (error field undefined); and when the
    request contains no duplicate queries — so that the single batch upsert of
    storeIntentAnalysis carries no duplicate query values and succeeds — the
    intent cache is populated with these default records. -/
theorem classify_rate_limit_exhaustion (cache : String → Option IntentAnalysis)
    (so : String → Nat → GenResult) (bo : Nat → BatchResult)
    (queries : List String) (visibleOnly : Bool)
    (hc : ∀ x r2, cache x = some r2 → r2.query = x)
    (hs : ∀ q2 n, so q2 n = GenResult.err true)
    (hb : ∀ n, bo n = BatchResult.err true)
    (q : String) (hmiss : cache q = none) (hqin : q ∈ queries) :
    (∀ p ∈ (analyzeIntentsPOST cache so bo true queries
        visibleOnly).intents.zip queries, p.2 = q → p.1 = defaultAnalysis q)
    ∧ (queries.Nodup →
        (analyzeIntentsPOST cache so bo true queries visibleOnly).newCache q
          = some (defaultAnalysis q))
    ∧ (defaultAnalysis q).intent = "Unknown"
    ∧ (defaultAnalysis q).error = none := by
  refine ⟨?_, ?_, rfl, rfl⟩
  · intro p hp hpq
    rw [analyzeIntentsPOST_intents] at hp
    rw [zip_map_mem _ queries p hp, hpq]
    exact mergeIntent_of_miss_allRL cache so bo queries visibleOnly hc hs hb
      q hmiss
  · intro hnodup
    rw [analyzeIntentsPOST_newCache, analyzeIntentsPOST_intents]
    rw [storeIntentUpsert, merge_map_query, if_pos hnodup]
    rw [upsertRows_last (defaultAnalysis q) _ cache q ?_ ?_]
    · rw [formatIntent_default]
    · intro r hr hrq
      obtain ⟨x, hx, rfl⟩ := List.mem_map.mp hr
      rw [mergeIntent_query] at hrq
      subst hrq
      exact mergeIntent_of_miss_allRL cache so bo queries visibleOnly hc hs hb
        x hmiss
    · refine ⟨mergeIntent
        (listToMapLast (newIntents cache so bo true queries visibleOnly))
        (existingIntents cache queries) q, List.mem_map.mpr ⟨q, hqin, rfl⟩, ?_⟩
      exact mergeIntent_query _ _ _

/-- Claim C3 witness: concrete all-429 run with an empty cache and a
    duplicate-free request. -/
theorem classify_rate_limit_exhaustion_witness :
    (analyzeIntentsPOST (fun _ => none) (fun _ _ => GenResult.err true)
        (fun _ => BatchResult.err true) true ["weather today"] false).newCache
      "weather today" = some (defaultAnalysis "weather today")
    ∧ (defaultAnalysis "weather today").intent = "Unknown" := by
  constructor
  · exact (classify_rate_limit_exhaustion (fun _ => none)
      (fun _ _ => GenResult.err true) (fun _ => BatchResult.err true)
      ["weather today"] false (fun x r2 h => by cases h) (fun _ _ => rfl)
      (fun _ => rfl) "weather today" rfl (by decide)).2.1 (by decide)
  · exact (classify_rate_limit_exhaustion (fun _ => none)
      (fun _ _ => GenResult.err true) (fun _ => BatchResult.err true)
      ["weather today"] false (fun x r2 h => by cases h) (fun _ _ => rfl)
      (fun _ => rfl) "weather today" rfl (by decide)).2.2.1

/-- Claim C7: in single-prompt mode, when the endpoint's first attempt parses
    into an array, every requested query receives exactly one result in
    request order; a query omitted from the array gets the full default
    record, and a query present with missing fields gets those fields filled
    with the defaults (intent, category, funnel_stage "Unknown" and empty
    keywords). -/
theorem single_prompt_default_completeness (oracle : Nat → BatchResult)
    (queries : List String) (raws : List RawAnalysis)
    (h0 : oracle 0 = BatchResult.ok raws) :
    (analyzeMultipleQueriesWithSinglePrompt oracle queries 3).length
        = queries.length
    ∧ ∀ p ∈ (analyzeMultipleQueriesWithSinglePrompt oracle queries 3).zip
        queries,
      p.1.query = p.2
      ∧ (raws.find? (fun r => r.query == some p.2) = none →
          p.1 = defaultAnalysis p.2)
      ∧ ∀ r, raws.find? (fun r2 => r2.query == some p.2) = some r →
          (r.intent = none → p.1.intent = "Unknown")
          ∧ (r.category = none → p.1.category = "Unknown")
          ∧ (r.funnel_stage = none → p.1.funnel_stage = "Unknown")
          ∧ (r.main_keywords = none → p.1.main_keywords = []) := by
  have hrun : analyzeMultipleQueriesWithSinglePrompt oracle queries 3
      = queries.map (fillResult raws) := by
    rw [analyzeMultipleQueriesWithSinglePrompt, analyzeMultiGo, h0]
    rw [if_pos (by omega)]
  constructor
  · rw [hrun]
    exact List.length_map _ _
  · intro p hp
    rw [hrun] at hp
    have hfill := zip_map_mem (fillResult raws) queries p hp
    refine ⟨?_, ?_, ?_⟩
    · rw [hfill]
      rfl
    · intro hnone
      rw [hfill]
      simp [fillResult, hnone, jsOrOptStr, defaultAnalysis]
    · intro r hr
      refine ⟨?_, ?_, ?_, ?_⟩ <;> intro hfield <;> rw [hfill] <;>
        simp [fillResult, hr, hfield, jsOrOptStr]

/-- Claim C7 witness: two queries requested, the endpoint returns one object
    whose intent field is missing; the other query is omitted entirely. -/
theorem single_prompt_default_completeness_witness :
    (analyzeMultipleQueriesWithSinglePrompt
        (fun _ => BatchResult.ok [⟨some "a", none, some "Cat", some "Decision", none⟩])
        ["a", "b"] 3).length = 2
    ∧ (defaultAnalysis "b", ("b" : String)).1 = defaultAnalysis "b" := by
  constructor
  · exact (single_prompt_default_completeness
      (fun _ => BatchResult.ok [⟨some "a", none, some "Cat", some "Decision", none⟩])
      ["a", "b"] [⟨some "a", none, some "Cat", some "Decision", none⟩] rfl).1
  · exact ((single_prompt_default_completeness
      (fun _ => BatchResult.ok [⟨some "a", none, some "Cat", some "Decision", none⟩])
      ["a", "b"] [⟨some "a", none, some "Cat", some "Decision", none⟩] rfl).2
      (defaultAnalysis "b", "b") (by decide)).2.1 (by decide)

/-- Claim C9: for a stored credential whose expiry is more than 5 minutes in
    the future, getValidAccessToken returns the stored access token unchanged,
    performs no refresh call, and writes nothing to the credential store. -/
theorem token_freshness_no_refresh (tokens : StoredTokens) (now : Nat)
    (refreshOutcome : Option RefreshedCreds) (updateOk : Bool)
    (hfresh : now + 5 * 60 * 1000 < tokens.expiry_date) :
    (getValidAccessToken (some tokens) now refreshOutcome updateOk).result
        = Except.ok (some tokens.access_token)
    ∧ (getValidAccessToken (some tokens) now refreshOutcome updateOk).refreshCalls
        = 0
    ∧ (getValidAccessToken (some tokens) now refreshOutcome updateOk).wroteStore
        = false
    ∧ (getValidAccessToken (some tokens) now refreshOutcome updateOk).finalTokens
        = some tokens := by
  simp only [getValidAccessToken]
  rw [if_pos hfresh]
  exact ⟨rfl, rfl, rfl, rfl⟩

/-- Claim C9 witness. -/
theorem token_freshness_no_refresh_witness :
    (getValidAccessToken (some ⟨"tok", "ref", 1000000⟩) 0 none true).result
        = Except.ok (some "tok")
    ∧ (getValidAccessToken (some ⟨"tok", "ref", 1000000⟩) 0 none true).refreshCalls
        = 0
    ∧ (getValidAccessToken (some ⟨"tok", "ref", 1000000⟩) 0 none true).wroteStore
        = false
    ∧ (getValidAccessToken (some ⟨"tok", "ref", 1000000⟩) 0 none true).finalTokens
        = some ⟨"tok", "ref", 1000000⟩ :=
  token_freshness_no_refresh ⟨"tok", "ref", 1000000⟩ 0 none true (by decide)

/-- Claim C4 counterexample: when the refresh response reports expires_in = 0,
    the code persists now + 3600 s (JavaScript `0 || 3600`), not
    now + expires_in as the claim states for every provided expires_in. -/
theorem token_refresh_expires_in_zero_cex :
    ((getValidAccessToken (some ⟨"old", "ref", 0⟩) 5000000
        (some ⟨some "new", none, some 0⟩) true).finalTokens).map
      (fun t => t.expiry_date) = some (5000000 + 3600 * 1000)
    ∧ 5000000 + 3600 * 1000 ≠ 5000000 + 0 * 1000 := by
  exact ⟨rfl, by decide⟩

/-- Claim C4 (amended): for a credential expiring within 5 minutes,
    getValidAccessToken invokes the refresh endpoint exactly once, returns the
    new access token, and persists expiry now + expires_in when the response
    provides a nonzero expires_in, and now + 3600 s when expires_in is absent
    or zero. -/
theorem token_refresh_and_persist (tokens : StoredTokens) (now : Nat)
    (creds : RefreshedCreds) (newTok : String)
    (hexp : tokens.expiry_date ≤ now + 5 * 60 * 1000)
    (hacc : creds.access_token = some newTok) :
    (getValidAccessToken (some tokens) now (some creds) true).refreshCalls = 1
    ∧ (getValidAccessToken (some tokens) now (some creds) true).result
        = Except.ok (some newTok)
    ∧ (getValidAccessToken (some tokens) now (some creds) true).finalTokens
        = some ⟨newTok, tokens.refresh_token,
            now + jsOrNat creds.expires_in 3600 * 1000⟩
    ∧ (∀ e, creds.expires_in = some e → e ≠ 0 →
        now + jsOrNat creds.expires_in 3600 * 1000 = now + e * 1000)
    ∧ ((creds.expires_in = none ∨ creds.expires_in = some 0) →
        now + jsOrNat creds.expires_in 3600 * 1000 = now + 3600 * 1000) := by
  have hnotlt : ¬(now + 5 * 60 * 1000 < tokens.expiry_date) := by omega
  simp only [getValidAccessToken]
  rw [if_neg hnotlt]
  refine ⟨rfl, ?_, ?_, ?_, ?_⟩
  · rw [hacc]
    rfl
  · simp only [applyTokenUpdate, hacc]
    rfl
  · intro e he hne
    rw [he]
    simp [jsOrNat, hne]
  · rintro (he | he) <;> rw [he] <;> simp [jsOrNat]

/-- Claim C4 witness: expired credential, refresh returns a fresh token with
    expires_in 1800. -/
theorem token_refresh_and_persist_witness :
    (getValidAccessToken (some ⟨"old", "ref", 0⟩) 5000000
        (some ⟨some "new", none, some 1800⟩) true).refreshCalls = 1
    ∧ (getValidAccessToken (some ⟨"old", "ref", 0⟩) 5000000
        (some ⟨some "new", none, some 1800⟩) true).result
        = Except.ok (some "new")
    ∧ 5000000 + jsOrNat (some 1800) 3600 * 1000 = 5000000 + 1800 * 1000 := by
  have h := token_refresh_and_persist ⟨"old", "ref", 0⟩ 5000000
    ⟨some "new", none, some 1800⟩ "new" (by decide) rfl
  exact ⟨h.1, h.2.1, h.2.2.2.1 1800 rfl (by decide)⟩

/-- Claim C2 counterexample: at a concrete input where the refresh succeeds
    and the store write fails, the call surfaces exactly the same
    'Failed to refresh access token' error as when the refresh endpoint
    itself fails — the inner 'Failed to update tokens' throw is swallowed by
    the surrounding catch — and the call errs instead of returning the fresh
    in-memory access token. -/
theorem token_persist_failed_cex :
    (getValidAccessToken (some ⟨"old", "ref", 0⟩) 5000000
        (some ⟨some "new", none, some 1800⟩) false).result
      = (getValidAccessToken (some ⟨"old", "ref", 0⟩) 5000000 none false).result
    ∧ (getValidAccessToken (some ⟨"old", "ref", 0⟩) 5000000
        (some ⟨some "new", none, some 1800⟩) false).result
      = Except.error "Failed to refresh access token" := by
  exact ⟨rfl, rfl⟩

/-- Claim C2 (amended): if the write of the refreshed credentials fails,
    getValidAccessToken fails with the same generic
    'Failed to refresh access token' error used when the refresh endpoint
    fails — no distinct TokenPersistFailed error exists — the store keeps the
    stale credentials, and the fresh in-memory access token is not returned
    to the caller. -/
theorem token_persist_failure (tokens : StoredTokens) (now : Nat)
    (creds : RefreshedCreds)
    (hexp : tokens.expiry_date ≤ now + 5 * 60 * 1000) :
    (getValidAccessToken (some tokens) now (some creds) false).result
        = Except.error "Failed to refresh access token"
    ∧ (getValidAccessToken (some tokens) now (some creds) false).result
        = (getValidAccessToken (some tokens) now none false).result
    ∧ (getValidAccessToken (some tokens) now (some creds) false).finalTokens
        = some tokens
    ∧ (getValidAccessToken (some tokens) now (some creds) false).refreshCalls = 1
    ∧ (getValidAccessToken (some tokens) now (some creds) false).wroteStore
        = false := by
  have hnotlt : ¬(now + 5 * 60 * 1000 < tokens.expiry_date) := by omega
  simp only [getValidAccessToken]
  simp only [if_neg hnotlt]
  exact ⟨rfl, rfl, rfl, rfl, rfl⟩

/-- Claim C2 (amended) witness. -/
theorem token_persist_failure_witness :
    (getValidAccessToken (some ⟨"old", "keep", 100⟩) 9000000
        (some ⟨some "new", none, some 1800⟩) false).result
      = Except.error "Failed to refresh access token"
    ∧ (getValidAccessToken (some ⟨"old", "keep", 100⟩) 9000000
        (some ⟨some "new", none, some 1800⟩) false).finalTokens
      = some ⟨"old", "keep", 100⟩ := by
  have h := token_persist_failure ⟨"old", "keep", 100⟩ 9000000
    ⟨some "new", none, some 1800⟩ (by decide)
  exact ⟨h.1, h.2.2.1⟩

/-- Claim C5: the update object contains only the access_token and
    expiry_date columns, so whatever the refresh response contains (in
    particular when it omits a refresh token), the stored refresh token after
    the call equals the value stored before the call. -/
theorem refresh_token_retention (tokens : StoredTokens) (now : Nat)
    (creds : RefreshedCreds) (updateOk : Bool)
    (homit : creds.refresh_token = none) :
    ∃ t2, (getValidAccessToken (some tokens) now (some creds) updateOk).finalTokens
        = some t2
      ∧ t2.refresh_token = tokens.refresh_token := by
  simp only [getValidAccessToken]
  by_cases hf : now + 5 * 60 * 1000 < tokens.expiry_date
  · rw [if_pos hf]
    exact ⟨tokens, rfl, rfl⟩
  · rw [if_neg hf]
    cases updateOk with
    | true =>
      exact ⟨applyTokenUpdate tokens
        ⟨creds.access_token, now + jsOrNat creds.expires_in 3600 * 1000⟩,
        rfl, rfl⟩
    | false => exact ⟨tokens, rfl, rfl⟩

/-- Claim C5 witness: Scenario C of the spec — expired credential, refresh
    response with a new access token and no refresh token. -/
theorem refresh_token_retention_witness :
    ∃ t2, (getValidAccessToken (some ⟨"old", "keepme", 0⟩) 5000000
        (some ⟨some "new", none, some 1800⟩) true).finalTokens = some t2
      ∧ t2.refresh_token = "keepme" :=
  refresh_token_retention ⟨"old", "keepme", 0⟩ 5000000
    ⟨some "new", none, some 1800⟩ true rfl

theorem fetch_hit_fresh (cache : String × String → Option CachedEntry)
    (userId siteUrl startDate endDate : String)
    (metrics dimensions : List String) (now : Nat) (entry : CachedEntry)
    (gscData : Option (List ApiDataRow))
    (hhit : cache (userId, cacheKey siteUrl startDate endDate dimensions)
      = some entry)
    (hfresh : now - entry.created_at < 24 * 60 * 60 * 1000) :
    fetchSearchAnalyticsData cache userId siteUrl startDate endDate metrics
      dimensions now gscData = ⟨some entry.data, false, cache⟩ := by
  simp only [fetchSearchAnalyticsData, hhit]
  rw [if_pos hfresh]

theorem fetch_hit_stale (cache : String × String → Option CachedEntry)
    (userId siteUrl startDate endDate : String)
    (metrics dimensions : List String) (now : Nat) (entry : CachedEntry)
    (rows : List ApiDataRow)
    (hhit : cache (userId, cacheKey siteUrl startDate endDate dimensions)
      = some entry)
    (hstale : ¬(now - entry.created_at < 24 * 60 * 60 * 1000)) :
    fetchSearchAnalyticsData cache userId siteUrl startDate endDate metrics
      dimensions now (some rows)
      = ⟨some (rows.map (filterRow metrics)), true, cache⟩ := by
  simp only [fetchSearchAnalyticsData, hhit]
  rw [if_neg hstale]

theorem fetch_miss (cache : String × String → Option CachedEntry)
    (userId siteUrl startDate endDate : String)
    (metrics dimensions : List String) (now : Nat) (rows : List ApiDataRow)
    (hmiss : cache (userId, cacheKey siteUrl startDate endDate dimensions)
      = none) :
    fetchSearchAnalyticsData cache userId siteUrl startDate endDate metrics
      dimensions now (some rows)
      = ⟨some (rows.map (filterRow metrics)), true,
          fun k =>
            if k = (userId, cacheKey siteUrl startDate endDate dimensions)
            then some ⟨rows.map (filterRow metrics), now⟩ else cache k⟩ := by
  simp only [fetchSearchAnalyticsData, hmiss]

/-- Claim C8 counterexample: a stale hit (age exactly 24 h) re-fetches, but
    the upsert — issued without a conflict target against a table whose
    primary key (id) is not in the payload — collides with the existing
    UNIQUE(user_id, cache_key) row; the error is ignored and the entry keeps
    the old data and timestamp instead of being overwritten with the freshly
    filtered rows. -/
theorem report_cache_overwrite_cex :
    (fetchSearchAnalyticsData (fun _ => some ⟨[], 0⟩) "u" "s" "a" "b"
        ["clicks"] ["query"] 86400000
        (some [⟨["k"], [("clicks", 1)]⟩])).newCache
      ("u", cacheKey "s" "a" "b" ["query"]) = some ⟨[], 0⟩
    ∧ (some (⟨[], 0⟩ : CachedEntry)
        ≠ some (⟨[⟨["k"], [("clicks", 1)]⟩], 86400000⟩ : CachedEntry)) := by
  exact ⟨rfl, by decide⟩

/-- Claim C8 (amended): a cached report younger than 24 hours is returned
    without querying the analytics endpoint and without touching the cache;
    one aged 24 hours or more triggers a full re-fetch whose freshly filtered
    rows are returned, but the cache write (an upsert with no conflict
    target, resolving on the id primary key) fails against the existing
    (user_id, cache_key) row, the error is ignored, and the stale entry is
    left unchanged — neither overwritten nor merged. -/
theorem report_cache_freshness (cache : String × String → Option CachedEntry)
    (userId siteUrl startDate endDate : String)
    (metrics dimensions : List String) (now : Nat) (entry : CachedEntry)
    (gscData : Option (List ApiDataRow))
    (hhit : cache (userId, cacheKey siteUrl startDate endDate dimensions)
      = some entry) :
    (now - entry.created_at < 24 * 60 * 60 * 1000 →
      (fetchSearchAnalyticsData cache userId siteUrl startDate endDate metrics
          dimensions now gscData).result = some entry.data
      ∧ (fetchSearchAnalyticsData cache userId siteUrl startDate endDate
          metrics dimensions now gscData).endpointQueried = false
      ∧ (fetchSearchAnalyticsData cache userId siteUrl startDate endDate
          metrics dimensions now gscData).newCache = cache)
    ∧ (24 * 60 * 60 * 1000 ≤ now - entry.created_at →
        ∀ rows, gscData = some rows →
      (fetchSearchAnalyticsData cache userId siteUrl startDate endDate metrics
          dimensions now gscData).endpointQueried = true
      ∧ (fetchSearchAnalyticsData cache userId siteUrl startDate endDate
          metrics dimensions now gscData).result
          = some (rows.map (filterRow metrics))
      ∧ (fetchSearchAnalyticsData cache userId siteUrl startDate endDate
          metrics dimensions now gscData).newCache = cache) := by
  constructor
  · intro hfresh
    rw [fetch_hit_fresh cache userId siteUrl startDate endDate metrics
      dimensions now entry gscData hhit hfresh]
    exact ⟨rfl, rfl, rfl⟩
  · intro hstale rows hrows
    subst hrows
    rw [fetch_hit_stale cache userId siteUrl startDate endDate metrics
      dimensions now entry rows hhit (by omega)]
    exact ⟨rfl, rfl, rfl⟩

/-- Claim C8 witness: a fresh hit (age 1000 ms) and a stale hit (age exactly
    24 h). -/
theorem report_cache_freshness_witness :
    (fetchSearchAnalyticsData (fun _ => some ⟨[], 0⟩) "u" "s" "a" "b"
        ["clicks"] ["query"] 1000 none).endpointQueried = false
    ∧ (fetchSearchAnalyticsData (fun _ => some ⟨[], 0⟩) "u" "s" "a" "b"
        ["clicks"] ["query"] 86400000
        (some [⟨["k"], [("clicks", 1)]⟩])).endpointQueried = true := by
  constructor
  · exact ((report_cache_freshness (fun _ => some ⟨[], 0⟩) "u" "s" "a" "b"
      ["clicks"] ["query"] 1000 ⟨[], 0⟩ none rfl).1 (by decide)).2.1
  · exact ((report_cache_freshness (fun _ => some ⟨[], 0⟩) "u" "s" "a" "b"
      ["clicks"] ["query"] 86400000 ⟨[], 0⟩
      (some [⟨["k"], [("clicks", 1)]⟩]) rfl).2
      (by decide) [⟨["k"], [("clicks", 1)]⟩] rfl).1

/-- Claim C10: the report-cache key is built from site, dates and dimensions
    only — the requested metrics are not part of it — while the persisted
    rows are filtered to that call's metrics; hence a second call with a
    different metric selection that hits the still-fresh entry returns the
    rows as filtered by the first call's metrics, without querying the
    analytics endpoint. -/
theorem report_cache_key_ignores_metrics
    (cache : String × String → Option CachedEntry)
    (userId siteUrl startDate endDate : String)
    (m1 m2 dimensions : List String) (now1 now2 : Nat)
    (rows : List ApiDataRow) (g2 : Option (List ApiDataRow))
    (hmiss : cache (userId, cacheKey siteUrl startDate endDate dimensions)
      = none)
    (h12 : now2 - now1 < 24 * 60 * 60 * 1000) :
    (fetchSearchAnalyticsData cache userId siteUrl startDate endDate m1
        dimensions now1 (some rows)).newCache
        (userId, cacheKey siteUrl startDate endDate dimensions)
      = some ⟨rows.map (filterRow m1), now1⟩
    ∧ (fetchSearchAnalyticsData
        ((fetchSearchAnalyticsData cache userId siteUrl startDate endDate m1
          dimensions now1 (some rows)).newCache)
        userId siteUrl startDate endDate m2 dimensions now2 g2).result
      = some (rows.map (filterRow m1))
    ∧ (fetchSearchAnalyticsData
        ((fetchSearchAnalyticsData cache userId siteUrl startDate endDate m1
          dimensions now1 (some rows)).newCache)
        userId siteUrl startDate endDate m2 dimensions now2 g2).endpointQueried
      = false := by
  have h1 := fetch_miss cache userId siteUrl startDate endDate m1 dimensions
    now1 rows hmiss
  have hfirst : (fetchSearchAnalyticsData cache userId siteUrl startDate
      endDate m1 dimensions now1 (some rows)).newCache
      (userId, cacheKey siteUrl startDate endDate dimensions)
      = some ⟨rows.map (filterRow m1), now1⟩ := by
    rw [h1]
    simp
  have h2 := fetch_hit_fresh
    ((fetchSearchAnalyticsData cache userId siteUrl startDate endDate m1
      dimensions now1 (some rows)).newCache)
    userId siteUrl startDate endDate m2 dimensions now2
    ⟨rows.map (filterRow m1), now1⟩ g2 hfirst h12
  rw [h2]
  exact ⟨hfirst, rfl, rfl⟩

/-- Claim C10 witness: first call requests clicks, second call requests
    impressions within the freshness window; it receives the clicks-filtered
    rows. -/
theorem report_cache_key_ignores_metrics_witness :
    (fetchSearchAnalyticsData
        ((fetchSearchAnalyticsData (fun _ => none) "u" "s" "a" "b" ["clicks"]
          ["query"] 100 (some [⟨["k"], [("clicks", 1), ("impressions", 2)]⟩])).newCache)
        "u" "s" "a" "b" ["impressions"] ["query"] 200 none).result
      = some [⟨["k"], [("clicks", 1)]⟩]
    ∧ (fetchSearchAnalyticsData
        ((fetchSearchAnalyticsData (fun _ => none) "u" "s" "a" "b" ["clicks"]
          ["query"] 100 (some [⟨["k"], [("clicks", 1), ("impressions", 2)]⟩])).newCache)
        "u" "s" "a" "b" ["impressions"] ["query"] 200 none).endpointQueried
      = false := by
  have h := report_cache_key_ignores_metrics (fun _ => none) "u" "s" "a" "b"
    ["clicks"] ["impressions"] ["query"] 100 200
    [⟨["k"], [("clicks", 1), ("impressions", 2)]⟩] none rfl (by decide)
  exact ⟨h.2.1, h.2.2⟩
